import Mathlib

/-!
Shallow embedding of the periodic task scheduler
(`src/aurelius/modules/scheduler.py`, class `TaskScheduler`) and proofs of
the specification claims about it.

Modelling conventions:
* Wall-clock instants are minute-granular `DateTime` records (absolute day
  index plus hour and minute); `datetime.now() - last_run` is embedded as
  integer subtraction of total seconds, matching
  `time_since_last_run.total_seconds()`.
* Job operations are opaque: an invocation either returns normally or
  raises, which we represent with an `Outcome` value fed to the loop body;
  `invoke_op` turns it into the `Except` value the `try` block observes.
* External effects (the Discord alert sink, the data store) are embedded
  as fields of the per-job loop state: the execution history list mirrors
  the value stored under `task_execution_history:<name>`, and
  `alert_attempts` counts calls made to `discord.send_system_alert`.
* Python exceptions are `Except String` values: a `try/except` block is a
  `match` on the `Except`, and a function whose body is wrapped in a
  catch-all `except` is total.
-/

set_option autoImplicit false

namespace Scheduler

/-- A minute-granular wall-clock instant: `day` is an absolute day index
(so `date()` equality is `day` equality), `hour` and `minute` are the
time of day. -/
structure DateTime where
  day : Nat
  hour : Nat
  minute : Nat
  deriving DecidableEq, Repr

/-- Total seconds since the epoch, the measure used by
`time_since_last_run.total_seconds()`. -/
def DateTime.totalSeconds (t : DateTime) : Nat :=
  ((t.day * 24 + t.hour) * 60 + t.minute) * 60

/-- Embeds `last_run + timedelta(minutes=interval_minutes)` from
`_calculate_next_run`. -/
def DateTime.addMinutes (t : DateTime) (m : Nat) : DateTime :=
  let total := (t.day * 24 + t.hour) * 60 + t.minute + m
  ⟨total / 1440, total % 1440 / 60, total % 60⟩

/-- Embedding of `TaskScheduler._should_run_task` (scheduler.py lines
192-228). Arguments mirror `config["interval_minutes"]`,
`config.get("last_run")`, the `run_at_hour` parameter, and
`datetime.now()`.  The source wraps the body in a `try` that returns
`False` on error; no step of the pure body can raise, so the wrapper is
the identity here. -/
def should_run_task (interval_minutes : Nat) (last_run : Option DateTime)
    (run_at_hour : Option Nat) (now : DateTime) : Bool :=
  match last_run with
  | none =>
    -- If never run, run immediately (except for time-specific tasks)
    match run_at_hour with
    | some h => now.hour == h
    | none => true
  | some lr =>
    -- Check if enough time has passed
    if (now.totalSeconds : Int) - lr.totalSeconds < (interval_minutes * 60 : Nat) then
      false
    else
      -- For tasks with specific run hours, check the hour
      match run_at_hour with
      | some h =>
        if now.hour ≠ h then false
        -- Also check if we already ran today at this hour
        else if lr.day == now.day && lr.hour == h then false
        else true
      | none => true

/-- Embedding of the execution-log dict built by
`TaskScheduler._log_task_execution`: `{task_name, timestamp, success,
error}`. -/
structure ExecutionRecord where
  task_name : String
  timestamp : DateTime
  success : Bool
  error : Option String
  deriving DecidableEq, Repr

/-- Embedding of `TaskScheduler._log_task_execution` (scheduler.py lines
230-250): prepend the new record (`history.insert(0, log)`), then keep
only the last 100 entries (`history[:100]`). The stored value under
`task_execution_history:<name>` before the call is `history`; the value
after is the result. -/
def log_task_execution (history : List ExecutionRecord) (r : ExecutionRecord) :
    List ExecutionRecord :=
  (r :: history).take 100

/-- The outcome of one invocation of a job's opaque async operation:
`await task_function()` either returns normally or raises with a
message. -/
inductive Outcome where
  | success
  | failure (msg : String)
  deriving DecidableEq, Repr

/-- The `Except` value observed by the `try` block that wraps
`await task_function()`: a raised exception is an `.error`. -/
def invoke_op : Outcome → Except String Unit
  | .success => .ok ()
  | .failure m => .error m

/-- The scheduling-relevant part of one entry of
`TaskScheduler.task_configs`: the `interval_minutes`, optional
`run_at_hour` and `enabled` keys (the `function` value is the opaque
operation, represented elsewhere by `Outcome`s, and `last_run` is
mutable state, kept in `LoopState`). -/
structure JobConfig where
  name : String
  interval_minutes : Nat
  run_at_hour : Option Nat
  enabled : Bool
  deriving DecidableEq, Repr

/-- The mutable state owned by one job's loop: `config["last_run"]`, the
persisted history list under `task_execution_history:<name>`, and the
number of calls made so far to `discord.send_system_alert` for this
job's failures. -/
structure LoopState where
  last_run : Option DateTime
  history : List ExecutionRecord
  alert_attempts : Nat
  deriving DecidableEq, Repr

/-- Embedding of the `if should_run:` body of
`TaskScheduler._run_periodic_task` (scheduler.py lines 155-180): invoke
the operation; on normal return set `config["last_run"] = now` and log a
success record; on a raised exception leave `last_run` unchanged, log a
failure record, and attempt a Discord alert (whose own failure is
swallowed by the inner bare `except`). -/
def execute_step (cfg : JobConfig) (s : LoopState) (now : DateTime)
    (outcome : Outcome) : LoopState :=
  match invoke_op outcome with
  | .ok _ =>
    { s with
      last_run := some now
      history := log_task_execution s.history ⟨cfg.name, now, true, none⟩ }
  | .error m =>
    { s with
      history := log_task_execution s.history ⟨cfg.name, now, false, some m⟩
      alert_attempts := s.alert_attempts + 1 }

/-- One tick of the `while self.is_running` loop of
`TaskScheduler._run_periodic_task` (scheduler.py lines 150-190): evaluate
`_should_run_task`; if due, run `execute_step`; otherwise leave the state
unchanged; then sleep.  The result is an `Except`: an `.error` would mean
an exception escaped the tick and killed the loop, and the per-tick
`try/except Exception` of the source is what makes every branch return
`.ok`. -/
def run_tick (cfg : JobConfig) (s : LoopState) (now : DateTime)
    (outcome : Outcome) : Except String LoopState :=
  if should_run_task cfg.interval_minutes s.last_run cfg.run_at_hour now then
    .ok (execute_step cfg s now outcome)
  else
    .ok s

/-- The loop of `_run_periodic_task` over a finite schedule of ticks, each
tick supplying the wall-clock time at which it fires and the outcome the
job's operation would produce if invoked.  An `.error` at any tick would
abort the remaining ticks, i.e. terminate the loop. -/
def run_loop (cfg : JobConfig) : LoopState → List (DateTime × Outcome) →
    Except String LoopState
  | s, [] => .ok s
  | s, (now, o) :: rest => (run_tick cfg s now o).bind (fun s' => run_loop cfg s' rest)

/-- Embedding of `TaskScheduler.run_task_manually` (scheduler.py lines
514-536). `registered` is `task_name in self.task_configs`.  Returns the
boolean result together with the job's loop state after the call.  On a
raised exception the outer `except` logs a failure record and returns
`False`; no Discord alert is attempted on this path. -/
def run_task_manually (registered : Bool) (cfg : JobConfig) (s : LoopState)
    (now : DateTime) (outcome : Outcome) : Bool × LoopState :=
  if !registered then
    (false, s)
  else
    match invoke_op outcome with
    | .ok _ =>
      (true,
        { s with
          last_run := some now
          history := log_task_execution s.history ⟨cfg.name, now, true, none⟩ })
    | .error m =>
      (false,
        { s with
          history := log_task_execution s.history ⟨cfg.name, now, false, some m⟩ })

/-- What `await task` yields in `TaskScheduler.stop` for one entry of
`self.running_tasks`: the task may already be done (`task.done()`), or,
after `task.cancel()`, the await may return normally, raise
`asyncio.CancelledError`, or raise some other exception. -/
inductive TaskOutcome where
  | alreadyDone
  | normal
  | cancelled
  | raises (msg : String)
  deriving DecidableEq, Repr

/-- A task outcome a `_run_periodic_task` coroutine can actually produce:
every exception inside its loop is caught (`except Exception` per tick,
`except asyncio.CancelledError: break` on cancellation, and the handlers'
own awaits can only raise `CancelledError`), so awaiting a cancelled
runner yields normal completion or `CancelledError`, never another
exception. -/
def TaskOutcome.isRunnerOutcome : TaskOutcome → Bool
  | .raises _ => false
  | _ => true

/-- The state `TaskScheduler.stop` operates on: `self.is_running` and
`self.running_tasks`, each task represented by its name and what awaiting
it yields. -/
structure OrchestratorState where
  is_running : Bool
  running_tasks : List (String × TaskOutcome)
  deriving DecidableEq, Repr

/-- The `for task_name, task in self.running_tasks.items()` loop of
`TaskScheduler.stop` (scheduler.py lines 62-69): skip tasks that are
already done; otherwise cancel and await, passing on
`asyncio.CancelledError` and propagating any other exception. -/
def drain_tasks : List (String × TaskOutcome) → Except String Unit
  | [] => .ok ()
  | (_, o) :: rest =>
    match o with
    | .alreadyDone => drain_tasks rest
    | .normal => drain_tasks rest
    | .cancelled => drain_tasks rest
    | .raises m => .error m

/-- Embedding of `TaskScheduler.stop` (scheduler.py lines 54-73): a no-op
when not running; otherwise drain all tasks, then clear the task set and
the running flag.  An exception propagating out of the drain loop leaves
the state untouched (the `clear`/flag lines are never reached). -/
def stop_scheduler (st : OrchestratorState) : Except String OrchestratorState :=
  if !st.is_running then
    .ok st
  else
    (drain_tasks st.running_tasks).bind fun _ =>
      .ok { st with running_tasks := [], is_running := false }

/-- Embedding of the `overall_status` derivation in
`TaskScheduler._system_health_check` (scheduler.py lines 447-456):
`redis_ok` is `health_status["redis_connection"]`, `task_running` lists
the `running` flag of each entry of `health_status["task_status"]`, and
`tasks_ok = all(...)`. -/
def overall_status (redis_ok : Bool) (task_running : List Bool) : String :=
  let tasks_ok := task_running.all id
  if redis_ok && tasks_ok then "healthy"
  else if redis_ok || tasks_ok then "degraded"
  else "unhealthy"

/-- What one invocation of an analytics job did: whether the report
builder was called and whether a report was handed to
`discord.send_analytics_report`. -/
structure AnalyticsResult where
  generated : Bool
  sent : Bool
  deriving DecidableEq, Repr

/-- Embedding of `TaskScheduler._generate_weekly_analytics` (scheduler.py
lines 366-380). `weekday` is `datetime.now().weekday()` (0 = Monday);
`report_gen` is what `await generate_weekly_report()` yields (a report,
`None`, or a raised exception); `send` is what
`await discord.send_analytics_report(report)` yields.  The body is
wrapped in a catch-all `except` that only logs, so the operation always
returns normally: the return type is a plain value, not an `Except`. -/
def generate_weekly_analytics (weekday : Nat)
    (report_gen : Except String (Option String))
    (send : String → Except String Unit) : AnalyticsResult :=
  if weekday == 0 then
    match report_gen with
    | .ok (some r) =>
      match send r with
      | .ok _ => ⟨true, true⟩
      | .error _ => ⟨true, false⟩
    | .ok none => ⟨true, false⟩
    | .error _ => ⟨true, false⟩
  else ⟨false, false⟩

/-- Embedding of `TaskScheduler._generate_monthly_analytics` (scheduler.py
lines 382-396), identical to the weekly job except that the guard is
`datetime.now().day == 1` (`month_day` is the day of the month). -/
def generate_monthly_analytics (month_day : Nat)
    (report_gen : Except String (Option String))
    (send : String → Except String Unit) : AnalyticsResult :=
  if month_day == 1 then
    match report_gen with
    | .ok (some r) =>
      match send r with
      | .ok _ => ⟨true, true⟩
      | .error _ => ⟨true, false⟩
    | .ok none => ⟨true, false⟩
    | .error _ => ⟨true, false⟩
  else ⟨false, false⟩

/-- Embedding of `TaskScheduler._calculate_next_run` (scheduler.py lines
497-512): `"immediately"` when the job has never run, otherwise
`last_run + timedelta(minutes=interval_minutes)`.  The source wraps the
body in a `try` returning `None` on error; no step of the pure body can
raise, so that branch is unreachable here. -/
inductive NextRun where
  | immediately
  | at (t : DateTime)
  deriving DecidableEq, Repr

/-- The computation of `_calculate_next_run` on a config's
`interval_minutes` and `last_run`. -/
def calculate_next_run (interval_minutes : Nat) (last_run : Option DateTime) :
    NextRun :=
  match last_run with
  | none => .immediately
  | some lr => .at (lr.addMinutes interval_minutes)

/-- One entry of `status["tasks"]` built by `TaskScheduler.get_task_status`
(scheduler.py lines 483-489). -/
structure StatusEntry where
  enabled : Bool
  interval_minutes : Nat
  last_run : Option DateTime
  running : Bool
  next_run : NextRun
  deriving DecidableEq, Repr

/-- The scheduler state read by `get_task_status`: `self.is_running`,
`self.task_configs` (per job: static config plus mutable `last_run`), and
per job whether `self.running_tasks` holds a live (not done) task for it
(`none` when the name is absent from `running_tasks`). -/
structure StatusState where
  is_running : Bool
  configs : List (String × JobConfig × Option DateTime)
  task_alive : List (String × Bool)
  deriving DecidableEq, Repr

/-- The value of `status["tasks"][task_name]["running"]`:
`task is not None and not task.done() if task else False`. -/
def task_running_flag (task_alive : List (String × Bool)) (name : String) : Bool :=
  match task_alive.lookup name with
  | some alive => alive
  | none => false

/-- The result of `get_task_status`: either the full status dict or the
empty dict `{}` returned by the `except` handler. -/
inductive StatusResult where
  | empty
  | full (scheduler_running : Bool) (last_updated : DateTime)
      (tasks : List (String × StatusEntry))
  deriving DecidableEq, Repr

/-- The status dict built by the `try` body of `get_task_status`. -/
def build_status (st : StatusState) (now : DateTime) : StatusResult :=
  .full st.is_running now
    (st.configs.map fun (name, cfg, lr) =>
      (name,
        { enabled := cfg.enabled
          interval_minutes := cfg.interval_minutes
          last_run := lr
          running := task_running_flag st.task_alive name
          next_run := calculate_next_run cfg.interval_minutes lr }))

/-- Embedding of `TaskScheduler.get_task_status` (scheduler.py lines
471-495).  `fault` is an abstract oracle for an exception raised while
building the status dict (the pure builder itself cannot raise; the
oracle stands for pathological collaborator behavior the source guards
against): when it fires, the `except` handler returns `{}`.  The state is
returned alongside the result to make explicit that the call leaves it
untouched. -/
def get_task_status (st : StatusState) (now : DateTime) (fault : Option String) :
    StatusResult × StatusState :=
  let attempt : Except String StatusResult :=
    match fault with
    | some m => .error m
    | none => .ok (build_status st now)
  match attempt with
  | .ok r => (r, st)
  | .error _ => (.empty, st)

/-- Iterated `log_task_execution`: the persisted history after `n`
invocation attempts of one job, `r k` being the record written by the
`k`-th attempt (attempts numbered chronologically from 0). -/
def hist_after (r : Nat → ExecutionRecord) : Nat → List ExecutionRecord
  | 0 => []
  | n + 1 => log_task_execution (hist_after r n) (r n)

theorem take_cons_take {α : Type} (a : α) (l : List α) (k : Nat) :
    (a :: l.take k).take k = (a :: l).take k := by
  cases k with
  | zero => rfl
  | succ k =>
    have hmin : min k (k + 1) = k := by omega
    simp [List.take_succ_cons, List.take_take, hmin]

theorem hist_after_eq (r : Nat → ExecutionRecord) (n : Nat) :
    hist_after r n = ((List.range n).reverse.map r).take 100 := by
  induction n with
  | zero => rfl
  | succ n ih =>
    show log_task_execution (hist_after r n) (r n) = _
    rw [log_task_execution, ih, take_cons_take]
    simp [List.range_succ]

/-- C4: the persisted execution history of a job after `n` logged attempts
is exactly the 100 most recent records in newest-first order (attempt
`n - 1` first, attempt `n - 100` last, older records evicted), its length
is `min n 100`, and in particular after 150 attempts it is exactly
100. -/
theorem execution_history_retention (r : Nat → ExecutionRecord) (n : Nat) :
    hist_after r n = ((List.range n).reverse.map r).take 100 ∧
    (hist_after r n).length = min n 100 ∧
    (hist_after r 150).length = 100 := by
  refine ⟨hist_after_eq r n, ?_, ?_⟩
  · rw [hist_after_eq r n]
    simp [Nat.min_comm]
  · rw [hist_after_eq r 150]
    simp

/-- C5: the health check classifies the system as `healthy` iff the store
round-trip succeeded and every tracked task is running, `unhealthy` iff
neither holds, and `degraded` iff exactly one of the two holds. -/
theorem overall_status_derivation (redis_ok : Bool) (task_running : List Bool) :
    (overall_status redis_ok task_running = "healthy" ↔
      (redis_ok = true ∧ task_running.all id = true)) ∧
    (overall_status redis_ok task_running = "unhealthy" ↔
      (redis_ok = false ∧ task_running.all id = false)) ∧
    (overall_status redis_ok task_running = "degraded" ↔
      ((redis_ok = true ∧ task_running.all id = false) ∨
        (redis_ok = false ∧ task_running.all id = true))) := by
  cases redis_ok <;> cases h : task_running.all id <;>
    simp [overall_status, h]

/-- C6: whenever strictly less than the job's interval has elapsed since
`last_run`, the evaluator reports the job as not due, whatever the
`run_at_hour` constraint is. -/
theorem should_run_task_interval_guard (interval : Nat) (lr now : DateTime)
    (rah : Option Nat)
    (h : (now.totalSeconds : Int) - lr.totalSeconds < (interval * 60 : Nat)) :
    should_run_task interval (some lr) rah now = false := by
  simp only [should_run_task]
  rw [if_pos h]

theorem should_run_task_interval_guard_witness :
    should_run_task 60 (some ⟨0, 9, 0⟩) (some 9) ⟨0, 9, 30⟩ = false :=
  should_run_task_interval_guard 60 ⟨0, 9, 0⟩ ⟨0, 9, 30⟩ (some 9) (by decide)

/-- C7: for an hour-constrained job whose interval has elapsed, the
evaluator reports not due whenever the current hour differs from
`run_at_hour`, and also whenever `last_run` falls on the same calendar
date as `now` with `last_run.hour = run_at_hour`; concretely a job with a
60-minute interval, `run_at_hour = 9` and `last_run` today at 09:00 is
not due today at 09:30 but is due tomorrow at 09:05. -/
theorem should_run_task_hour_guard :
    (∀ (interval : Nat) (lr now : DateTime) (h : Nat),
      ¬((now.totalSeconds : Int) - lr.totalSeconds < (interval * 60 : Nat)) →
      (now.hour ≠ h → should_run_task interval (some lr) (some h) now = false) ∧
      (lr.day = now.day → lr.hour = h →
        should_run_task interval (some lr) (some h) now = false)) ∧
    should_run_task 60 (some ⟨0, 9, 0⟩) (some 9) ⟨0, 9, 30⟩ = false ∧
    should_run_task 60 (some ⟨0, 9, 0⟩) (some 9) ⟨1, 9, 5⟩ = true := by
  refine ⟨?_, by decide, by decide⟩
  intro interval lr now h hint
  constructor
  · intro hne
    simp only [should_run_task]
    rw [if_neg hint]
    simp [hne]
  · intro hday hhour
    by_cases hne : now.hour = h
    · simp only [should_run_task]
      rw [if_neg hint]
      simp [hne, hday, hhour]
    · simp only [should_run_task]
      rw [if_neg hint]
      simp [hne]

theorem should_run_task_hour_guard_witness :
    should_run_task 60 (some ⟨0, 0, 0⟩) (some 9) ⟨1, 10, 0⟩ = false :=
  (should_run_task_hour_guard.1 60 ⟨0, 0, 0⟩ ⟨1, 10, 0⟩ 9 (by decide)).1 (by decide)

/-- C2 counterexample: a due tick whose operation raises leaves `last_run`
untouched (`none`, not the attempt start `10:00`), and the evaluator
reports the job due again on the very next tick — the loop sets
`last_run` only *after* a successful `await task_function()`, not before
the invocation as claimed. -/
theorem run_tick_last_run_before_cex :
    run_tick ⟨"sales_tasks", 60, none, true⟩ ⟨none, [], 0⟩ ⟨0, 10, 0⟩
        (Outcome.failure "boom") =
      .ok ⟨none, [⟨"sales_tasks", ⟨0, 10, 0⟩, false, some "boom"⟩], 1⟩ ∧
    (none : Option DateTime) ≠ some ⟨0, 10, 0⟩ ∧
    should_run_task 60 none none ⟨0, 10, 1⟩ = true :=
  ⟨rfl, by decide, rfl⟩

/-- C2 amended: the loop (and the manual trigger) set `last_run` to the
current time only after the invocation returns normally; when the
invocation raises, `last_run` is left unchanged, so a failing job is due
again on the next tick. -/
theorem run_tick_last_run_update (cfg : JobConfig) (s : LoopState)
    (now : DateTime) (m : String)
    (hdue : should_run_task cfg.interval_minutes s.last_run cfg.run_at_hour now = true) :
    run_tick cfg s now .success =
      .ok { s with last_run := some now,
                   history := log_task_execution s.history ⟨cfg.name, now, true, none⟩ } ∧
    run_tick cfg s now (.failure m) =
      .ok { s with history := log_task_execution s.history ⟨cfg.name, now, false, some m⟩,
                   alert_attempts := s.alert_attempts + 1 } ∧
    (run_task_manually true cfg s now .success).2.last_run = some now ∧
    (run_task_manually true cfg s now (.failure m)).2.last_run = s.last_run := by
  refine ⟨?_, ?_, rfl, rfl⟩ <;> simp [run_tick, hdue, execute_step, invoke_op]

theorem run_tick_last_run_update_witness :
    run_tick ⟨"sales_tasks", 60, none, true⟩ ⟨none, [], 0⟩ ⟨0, 10, 0⟩ Outcome.success =
      .ok ⟨some ⟨0, 10, 0⟩, [⟨"sales_tasks", ⟨0, 10, 0⟩, true, none⟩], 0⟩ :=
  (run_tick_last_run_update ⟨"sales_tasks", 60, none, true⟩ ⟨none, [], 0⟩ ⟨0, 10, 0⟩
    "boom" rfl).1

/-- C3 counterexample: for a raising operation the manual trigger and the
automatic execute step leave the job in different states — the automatic
path attempts a Discord failure alert, the manual path does not. -/
theorem run_task_manually_vs_automatic_cex :
    (run_task_manually true ⟨"sales_tasks", 60, none, true⟩ ⟨none, [], 0⟩ ⟨0, 10, 0⟩
        (Outcome.failure "x")).2 ≠
      execute_step ⟨"sales_tasks", 60, none, true⟩ ⟨none, [], 0⟩ ⟨0, 10, 0⟩
        (Outcome.failure "x") := by
  decide

/-- C3 amended: for a registered job the manual trigger performs the same
`last_run` update and the same `ExecutionRecord` persistence as the
automatic execute step on both outcomes — so success-path effects are
identical and history cannot tell the two apart — but on failure the
automatic path additionally attempts one Discord alert that the manual
path omits (and the manual call reports `false`); for an unregistered
name it returns `false` and changes nothing. -/
theorem run_task_manually_refines_execute_step (cfg : JobConfig) (s : LoopState)
    (now : DateTime) (m : String) (o : Outcome) :
    run_task_manually true cfg s now .success = (true, execute_step cfg s now .success) ∧
    ((run_task_manually true cfg s now (.failure m)).1 = false ∧
      (run_task_manually true cfg s now (.failure m)).2.last_run =
        (execute_step cfg s now (.failure m)).last_run ∧
      (run_task_manually true cfg s now (.failure m)).2.history =
        (execute_step cfg s now (.failure m)).history ∧
      (execute_step cfg s now (.failure m)).alert_attempts =
        (run_task_manually true cfg s now (.failure m)).2.alert_attempts + 1) ∧
    run_task_manually false cfg s now o = (false, s) :=
  ⟨rfl, ⟨rfl, rfl, rfl, rfl⟩, rfl⟩

/-- C9: on a day that is not Monday the weekly analytics operation reports
nothing generated and nothing sent, on a day of the month other than the
1st the monthly operation likewise, and since both operations return
normally (their bodies are wrapped in a catch-all handler), a due tick
running them takes the success path: it persists a success record and
advances `last_run`, resetting the cadence clock with no report
produced. -/
theorem analytics_off_day_skips (weekday month_day : Nat)
    (rgw rgm : Except String (Option String)) (send : String → Except String Unit)
    (cfg : JobConfig) (s : LoopState) (now : DateTime)
    (hw : weekday ≠ 0) (hm : month_day ≠ 1)
    (hdue : should_run_task cfg.interval_minutes s.last_run cfg.run_at_hour now = true) :
    generate_weekly_analytics weekday rgw send = ⟨false, false⟩ ∧
    generate_monthly_analytics month_day rgm send = ⟨false, false⟩ ∧
    run_tick cfg s now .success =
      .ok { s with last_run := some now,
                   history := log_task_execution s.history ⟨cfg.name, now, true, none⟩ } := by
  refine ⟨?_, ?_, ?_⟩
  · simp [generate_weekly_analytics, hw]
  · simp [generate_monthly_analytics, hm]
  · simp [run_tick, hdue, execute_step, invoke_op]

theorem analytics_off_day_skips_witness :
    generate_weekly_analytics 3 (Except.ok (some "report")) (fun _ => Except.ok ()) =
      ⟨false, false⟩ :=
  (analytics_off_day_skips 3 15 (Except.ok (some "report")) (Except.ok (some "report"))
    (fun _ => Except.ok ()) ⟨"weekly_analytics", 10080, none, true⟩ ⟨none, [], 0⟩
    ⟨0, 0, 0⟩ (by decide) (by decide) rfl).1

/-- C10: the status query never lets an exception reach its caller and
never mutates the scheduler state it reads: the state comes back
unchanged, a fault while building the dict yields the empty dict (no
running flag, no per-job entries), and in the fault-free case the full
status dict is returned. -/
theorem get_task_status_no_raise (st : StatusState) (now : DateTime)
    (fault : Option String) :
    (get_task_status st now fault).2 = st ∧
    (∀ m, fault = some m → (get_task_status st now fault).1 = .empty) ∧
    (fault = none → (get_task_status st now fault).1 = build_status st now) := by
  refine ⟨?_, ?_, ?_⟩
  · cases fault <;> rfl
  · rintro m rfl
    rfl
  · rintro rfl
    rfl

theorem get_task_status_no_raise_witness :
    (get_task_status
        ⟨true, [("sales_tasks", ⟨"sales_tasks", 60, none, true⟩, none)],
          [("sales_tasks", true)]⟩
        ⟨0, 0, 0⟩ (some "boom")).1 = .empty :=
  (get_task_status_no_raise
    ⟨true, [("sales_tasks", ⟨"sales_tasks", 60, none, true⟩, none)],
      [("sales_tasks", true)]⟩
    ⟨0, 0, 0⟩ (some "boom")).2.1 "boom" rfl

theorem drain_tasks_ok (l : List (String × TaskOutcome))
    (h : ∀ p ∈ l, p.2.isRunnerOutcome = true) : drain_tasks l = .ok () := by
  induction l with
  | nil => rfl
  | cons p rest ih =>
    obtain ⟨n, o⟩ := p
    have h1 := h (n, o) (List.mem_cons_self _ _)
    have hrest : ∀ q ∈ rest, q.2.isRunnerOutcome = true :=
      fun q hq => h q (List.mem_cons_of_mem _ hq)
    cases o with
    | alreadyDone => exact ih hrest
    | normal => exact ih hrest
    | cancelled => exact ih hrest
    | raises m => simp [TaskOutcome.isRunnerOutcome] at h1

/-- C8: when every spawned task yields a runner outcome on await (normal
completion or `CancelledError` — the only outcomes a
`_run_periodic_task` coroutine can produce, since its loop catches every
exception and turns cancellation into a `break`), `stop` is a no-op on a
non-running scheduler, drives a running one to the stopped state with the
flag cleared and the task set emptied, and running it twice in a row
yields the same end state as running it once, without error. -/
theorem stop_scheduler_idempotent (st : OrchestratorState)
    (h : ∀ p ∈ st.running_tasks, p.2.isRunnerOutcome = true) :
    (st.is_running = false → stop_scheduler st = .ok st) ∧
    (st.is_running = true → stop_scheduler st = .ok ⟨false, []⟩) ∧
    (stop_scheduler st).bind stop_scheduler = stop_scheduler st := by
  have hd := drain_tasks_ok st.running_tasks h
  refine ⟨?_, ?_, ?_⟩
  · intro h0
    simp [stop_scheduler, h0]
  · intro h1
    simp [stop_scheduler, h1, hd, Except.bind]
  · cases hr : st.is_running
    · simp [stop_scheduler, hr, Except.bind]
    · simp [stop_scheduler, hr, hd, Except.bind]

theorem stop_scheduler_idempotent_witness :
    stop_scheduler
        ⟨true, [("content_posting", TaskOutcome.cancelled),
          ("sales_tasks", TaskOutcome.normal)]⟩ =
      .ok ⟨false, []⟩ :=
  (stop_scheduler_idempotent
    ⟨true, [("content_posting", TaskOutcome.cancelled),
      ("sales_tasks", TaskOutcome.normal)]⟩ (by decide)).2.1 rfl

/-- A run of `n` consecutive daily ticks starting on day `a`, the job's
operation producing outcome `o` at every invocation it receives. -/
def day_ticks (o : Outcome) (a n : Nat) : List (DateTime × Outcome) :=
  (List.range' a n).map fun k => (⟨k, 0, 0⟩, o)

theorem run_tick_ok (cfg : JobConfig) (s : LoopState) (now : DateTime)
    (o : Outcome) : ∃ s', run_tick cfg s now o = .ok s' := by
  unfold run_tick
  split
  · exact ⟨_, rfl⟩
  · exact ⟨_, rfl⟩

theorem run_loop_ok (cfg : JobConfig) (ticks : List (DateTime × Outcome)) :
    ∀ s : LoopState, ∃ s', run_loop cfg s ticks = .ok s' := by
  induction ticks with
  | nil => exact fun s => ⟨s, rfl⟩
  | cons t rest ih =>
    intro s
    obtain ⟨now, o⟩ := t
    obtain ⟨s1, h1⟩ := run_tick_ok cfg s now o
    obtain ⟨s2, h2⟩ := ih s1
    exact ⟨s2, by simp [run_loop, h1, h2, Except.bind]⟩

theorem day_ticks_succ (o : Outcome) (a n : Nat) :
    day_ticks o a (n + 1) = (⟨a, 0, 0⟩, o) :: day_ticks o (a + 1) n := by
  simp [day_ticks, List.range']

theorem run_loop_failing (m : String) (cfg : JobConfig)
    (hcfg : cfg.run_at_hour = none) :
    ∀ (n a : Nat) (s : LoopState), s.last_run = none →
      s.history.length ≤ 100 →
      (∀ r ∈ s.history, r.success = false) →
      ∃ s', run_loop cfg s (day_ticks (.failure m) a n) = .ok s' ∧
        s'.last_run = none ∧
        s'.history.length = min (s.history.length + n) 100 ∧
        (∀ r ∈ s'.history, r.success = false) ∧
        s'.alert_attempts = s.alert_attempts + n := by
  intro n
  induction n with
  | zero =>
    intro a s hlr hlen hh
    exact ⟨s, rfl, hlr, by omega, hh, rfl⟩
  | succ n ih =>
    intro a s hlr hlen hh
    have hdue : should_run_task cfg.interval_minutes s.last_run cfg.run_at_hour
        ⟨a, 0, 0⟩ = true := by
      rw [hlr, hcfg]
      rfl
    have h1 : run_tick cfg s ⟨a, 0, 0⟩ (.failure m) =
        .ok (execute_step cfg s ⟨a, 0, 0⟩ (.failure m)) := by
      simp [run_tick, hdue]
    have hs1lr : (execute_step cfg s ⟨a, 0, 0⟩ (.failure m)).last_run = none := by
      simpa [execute_step, invoke_op] using hlr
    have hs1len : (execute_step cfg s ⟨a, 0, 0⟩ (.failure m)).history.length =
        min (s.history.length + 1) 100 := by
      simp [execute_step, invoke_op, log_task_execution, List.length_take]
      omega
    have hs1h : ∀ r ∈ (execute_step cfg s ⟨a, 0, 0⟩ (.failure m)).history,
        r.success = false := by
      intro r hr
      simp only [execute_step, invoke_op, log_task_execution] at hr
      have hr' := List.mem_of_mem_take hr
      rcases List.mem_cons.mp hr' with h | h
      · rw [h]
      · exact hh r h
    have hs1a : (execute_step cfg s ⟨a, 0, 0⟩ (.failure m)).alert_attempts =
        s.alert_attempts + 1 := by
      simp [execute_step, invoke_op]
    obtain ⟨s', hrun, hlr', hlen', hh', ha'⟩ :=
      ih (a + 1) (execute_step cfg s ⟨a, 0, 0⟩ (.failure m)) hs1lr
        (by rw [hs1len]; omega) hs1h
    refine ⟨s', ?_, hlr', ?_, hh', ?_⟩
    · rw [day_ticks_succ]
      simp [run_loop, h1, Except.bind, hrun]
    · rw [hlen', hs1len]
      omega
    · rw [ha', hs1a]
      omega

theorem run_loop_succeeding (cfg : JobConfig)
    (hcfg : cfg.run_at_hour = none) (hint : cfg.interval_minutes ≤ 1440) :
    ∀ (n a : Nat) (s : LoopState),
      (s.last_run = none ∨ ∃ k, k < a ∧ s.last_run = some ⟨k, 0, 0⟩) →
      s.history.length ≤ 100 →
      (∀ r ∈ s.history, r.success = true) →
      ∃ s', run_loop cfg s (day_ticks .success a n) = .ok s' ∧
        s'.history.length = min (s.history.length + n) 100 ∧
        (∀ r ∈ s'.history, r.success = true) := by
  intro n
  induction n with
  | zero =>
    intro a s _ hlen hh
    exact ⟨s, rfl, by omega, hh⟩
  | succ n ih =>
    intro a s hlr hlen hh
    have hdue : should_run_task cfg.interval_minutes s.last_run cfg.run_at_hour
        ⟨a, 0, 0⟩ = true := by
      rcases hlr with hnone | ⟨k, hk, hsome⟩
      · rw [hnone, hcfg]
        rfl
      · rw [hsome, hcfg]
        have hlt : ¬((DateTime.totalSeconds ⟨a, 0, 0⟩ : Int) -
            DateTime.totalSeconds ⟨k, 0, 0⟩ <
            ((cfg.interval_minutes * 60 : Nat) : Int)) := by
          simp only [DateTime.totalSeconds]
          push_cast
          omega
        simp only [should_run_task]
        rw [if_neg hlt]
    have h1 : run_tick cfg s ⟨a, 0, 0⟩ .success =
        .ok (execute_step cfg s ⟨a, 0, 0⟩ .success) := by
      simp [run_tick, hdue]
    have hs1lr : (execute_step cfg s ⟨a, 0, 0⟩ .success).last_run =
        some ⟨a, 0, 0⟩ := by
      simp [execute_step, invoke_op]
    have hs1len : (execute_step cfg s ⟨a, 0, 0⟩ .success).history.length =
        min (s.history.length + 1) 100 := by
      simp [execute_step, invoke_op, log_task_execution, List.length_take]
      omega
    have hs1h : ∀ r ∈ (execute_step cfg s ⟨a, 0, 0⟩ .success).history,
        r.success = true := by
      intro r hr
      simp only [execute_step, invoke_op, log_task_execution] at hr
      have hr' := List.mem_of_mem_take hr
      rcases List.mem_cons.mp hr' with h | h
      · rw [h]
      · exact hh r h
    obtain ⟨s', hrun, hlen', hh'⟩ :=
      ih (a + 1) (execute_step cfg s ⟨a, 0, 0⟩ .success)
        (Or.inr ⟨a, by omega, hs1lr⟩) (by rw [hs1len]; omega) hs1h
    refine ⟨s', ?_, ?_, hh'⟩
    · rw [day_ticks_succ]
      simp [run_loop, h1, Except.bind, hrun]
    · rw [hlen', hs1len]
      omega

/-- C1: every error raised by a job's operation is caught at the loop
boundary: over any finite tick schedule the loop of
`_run_periodic_task` completes every tick without an exception escaping
(`run_loop` always returns `.ok`).  In particular, after `n` due ticks of
a job whose operation always raises, that job's loop has survived all `n`
ticks with `n` failure records logged (capped at the 100 most recent) and
`n` alert attempts, while a job whose operation always succeeds runs the
same schedule to completion with only success records — the failing job
never affects it, the loops owning disjoint state by construction. -/
theorem failure_isolation :
    (∀ (cfg : JobConfig) (s : LoopState) (ticks : List (DateTime × Outcome)),
      ∃ s', run_loop cfg s ticks = .ok s') ∧
    (∀ n : Nat, ∃ sA,
      run_loop ⟨"social_engagement", 30, none, true⟩ ⟨none, [], 0⟩
          (day_ticks (.failure "boom") 0 n) = .ok sA ∧
      sA.history.length = min n 100 ∧
      sA.history.all (fun r => r.success == false) = true ∧
      sA.alert_attempts = n) ∧
    (∀ n : Nat, ∃ sB,
      run_loop ⟨"sales_tasks", 60, none, true⟩ ⟨none, [], 0⟩
          (day_ticks .success 0 n) = .ok sB ∧
      sB.history.length = min n 100 ∧
      sB.history.all (fun r => r.success == true) = true) := by
  refine ⟨fun cfg s ticks => run_loop_ok cfg ticks s, ?_, ?_⟩
  · intro n
    obtain ⟨sA, hrun, hlr, hlen, hh, ha⟩ :=
      run_loop_failing "boom" ⟨"social_engagement", 30, none, true⟩ rfl n 0
        ⟨none, [], 0⟩ rfl (by simp) (by simp)
    refine ⟨sA, hrun, by simpa using hlen, ?_, by simpa using ha⟩
    simp only [List.all_eq_true]
    intro r hr
    simp [hh r hr]
  · intro n
    obtain ⟨sB, hrun, hlen, hh⟩ :=
      run_loop_succeeding ⟨"sales_tasks", 60, none, true⟩ rfl (by norm_num) n 0
        ⟨none, [], 0⟩ (Or.inl rfl) (by simp) (by simp)
    refine ⟨sB, hrun, by simpa using hlen, ?_⟩
    simp only [List.all_eq_true]
    intro r hr
    simp [hh r hr]

end Scheduler
